import Mathlib

/-!
Verification of the DFU ownership-arbitration lock (`dfu_lock`) from
`applications/nrf_desktop/src/util/dfu_lock.c`.

Shallow embedding: a C pointer to a `struct dfu_lock_owner` is modelled as an
`Option Nat` (`none` is the C `NULL` pointer; distinct `Nat` addresses are
distinct descriptors, matching pointer-equality identity comparison).  The
environment parameter `hasCb : Nat → Bool` records, for each owner descriptor,
whether its `owner_changed` function pointer is non-null.  Each operation is a
pure function on the module state returning an `OpResult` that carries the C
return value, the new state, the list of callback invocations performed
(receiver address, argument pointer), and flags recording whether any
`__ASSERT_NO_MSG` fired or any null pointer was dereferenced (`->name` reads
in the log statements, matching the source lines).
-/

namespace DfuLock

/-- A C pointer to a `struct dfu_lock_owner`: `none` is `NULL`, `some a` is the
descriptor at address `a`. -/
abbrev OwnerPtr := Option Nat

/-- The static state of the `dfu_lock` module: the globals `previous_owner`,
`current_owner` and the atomic boolean `dfu_lock`. -/
structure State where
  previous_owner : OwnerPtr
  current_owner : OwnerPtr
  dfu_lock : Bool
deriving DecidableEq, Repr

/-- Initial state: both owner pointers `NULL`, `dfu_lock = ATOMIC_INIT(false)`. -/
def State.init : State := ⟨none, none, false⟩

/-- Result of one operation: the C return value (`true` for the `void` return
of `dfu_lock_release`), the state after the call, the callback invocations
`(receiver address, new-owner argument)` performed during the call, and
whether an assertion failed or a null pointer was dereferenced. -/
structure OpResult where
  ret : Bool
  state : State
  calls : List (Nat × OwnerPtr)
  assertFail : Bool
  nullDeref : Bool
deriving DecidableEq, Repr

/-- Whether an operation ran without assertion failure or null dereference. -/
def OpResult.safe (r : OpResult) : Bool := !r.assertFail && !r.nullDeref

/-- Embedding of `dfu_lock_try`.  Mirrors the C line by line:
`__ASSERT_NO_MSG(new_owner != NULL)`; `atomic_cas(&dfu_lock, false, true)`;
on CAS failure return `false` with no state change; on success
`__ASSERT_NO_MSG(current_owner == NULL)`, install `current_owner = new_owner`,
log (reads `new_owner->name`), and if `previous_owner` is non-null with a
non-null `owner_changed` and `previous_owner != current_owner`, invoke
`previous_owner->owner_changed(new_owner)`; return `true`. -/
def dfu_lock_try (hasCb : Nat → Bool) (s : State) (new_owner : OwnerPtr) : OpResult :=
  if s.dfu_lock then
    { ret := false, state := s, calls := [],
      assertFail := new_owner.isNone, nullDeref := false }
  else
    let s2 : State := { s with current_owner := new_owner, dfu_lock := true }
    let calls :=
      match s.previous_owner with
      | none => []
      | some p =>
        if hasCb p then
          if s.previous_owner ≠ s2.current_owner then [(p, new_owner)] else []
        else []
    { ret := true, state := s2, calls := calls,
      assertFail := new_owner.isNone || s.current_owner.isSome,
      nullDeref := new_owner.isNone }

/-- Embedding of `dfu_lock_release`: if `current_owner != owner`, return with
no effect; otherwise set `previous_owner = current_owner`, clear
`current_owner`, do `atomic_cas(&dfu_lock, true, false)` and
`__ASSERT_NO_MSG` that it succeeded, then log (reads `owner->name`). -/
def dfu_lock_release (s : State) (owner : OwnerPtr) : OpResult :=
  if s.current_owner ≠ owner then
    { ret := true, state := s, calls := [], assertFail := false, nullDeref := false }
  else
    { ret := true,
      state := { previous_owner := s.current_owner, current_owner := none,
                 dfu_lock := false },
      calls := [],
      assertFail := !s.dfu_lock,
      nullDeref := owner.isNone }

/-- Embedding of `dfu_lock_owner_check`: `return (owner == current_owner);`
(pointer comparison, no side effect, no dereference). -/
def dfu_lock_owner_check (s : State) (owner : OwnerPtr) : OpResult :=
  { ret := decide (owner = s.current_owner), state := s, calls := [],
    assertFail := false, nullDeref := false }

/-- Embedding of `dfu_lock_owner_check_and_try`: if `dfu_lock_owner_check`
succeeds return `true`; otherwise delegate to `dfu_lock_try`; if that also
fails, log a warning that reads `owner->name` and `current_owner->name`
before returning `false`. -/
def dfu_lock_owner_check_and_try (hasCb : Nat → Bool) (s : State) (owner : OwnerPtr) :
    OpResult :=
  if (dfu_lock_owner_check s owner).ret then
    { ret := true, state := s, calls := [], assertFail := false, nullDeref := false }
  else
    let r := dfu_lock_try hasCb s owner
    if r.ret then r
    else
      { r with nullDeref :=
          r.nullDeref || (owner.isNone || r.state.current_owner.isNone) }

/-- A call to one of the four public operations, with a non-null identity
(the documented precondition of `dfu_lock_try`; all callers in the repository
pass the address of a static descriptor). -/
inductive Op where
  | tryOp (x : Nat)
  | releaseOp (x : Nat)
  | checkOp (x : Nat)
  | checkAndTryOp (x : Nat)
deriving DecidableEq, Repr

/-- Dispatch one operation. -/
def step (hasCb : Nat → Bool) (s : State) : Op → OpResult
  | .tryOp x => dfu_lock_try hasCb s (some x)
  | .releaseOp x => dfu_lock_release s (some x)
  | .checkOp x => dfu_lock_owner_check s (some x)
  | .checkAndTryOp x => dfu_lock_owner_check_and_try hasCb s (some x)

/-- Run a sequence of operations from a state, collecting the final state,
the concatenated callback-invocation trace, and whether every single
operation ran safely (no assertion failure, no null dereference). -/
def exec (hasCb : Nat → Bool) : State → List Op → State × List (Nat × OwnerPtr) × Bool
  | s, [] => (s, [], true)
  | s, op :: rest =>
    let r := step hasCb s op
    let t := exec hasCb r.state rest
    (t.1, r.calls ++ t.2.1, r.safe && t.2.2)

/-- The module invariant: the atomic `dfu_lock` flag is set exactly when
`current_owner` is non-null. -/
def Inv (s : State) : Prop := s.dfu_lock = s.current_owner.isSome

/-- Every single operation, called with a non-null identity from a state
satisfying the invariant, preserves the invariant and runs safely. -/
theorem step_inv_safe (hasCb : Nat → Bool) (s : State) (op : Op) (h : Inv s) :
    Inv (step hasCb s op).state ∧ (step hasCb s op).safe = true := by
  simp only [Inv] at h
  cases op with
  | tryOp x =>
    cases hd : s.dfu_lock with
    | true => simpa [step, dfu_lock_try, hd, OpResult.safe, Inv] using h
    | false =>
      rw [hd] at h
      simp [step, dfu_lock_try, hd, OpResult.safe, Inv, h.symm]
  | releaseOp x =>
    by_cases hc : s.current_owner ≠ some x
    · simpa [step, dfu_lock_release, hc, OpResult.safe, Inv] using h
    · rw [not_not] at hc
      rw [hc] at h
      simp [step, dfu_lock_release, hc, OpResult.safe, Inv, h]
  | checkOp x =>
    simpa [step, dfu_lock_owner_check, OpResult.safe, Inv] using h
  | checkAndTryOp x =>
    by_cases hc : some x = s.current_owner
    · simpa [step, dfu_lock_owner_check_and_try, dfu_lock_owner_check, hc,
        OpResult.safe, Inv] using h
    · cases hd : s.dfu_lock with
      | true =>
        rw [hd] at h
        cases ho : s.current_owner with
        | none => rw [ho] at h; simp at h
        | some c =>
          have hxc : x ≠ c := by rintro rfl; exact hc ho.symm
          simp [step, dfu_lock_owner_check_and_try, dfu_lock_owner_check, hc,
            dfu_lock_try, hd, ho, hxc, OpResult.safe, Inv]
      | false =>
        rw [hd] at h
        simp [step, dfu_lock_owner_check_and_try, dfu_lock_owner_check, hc,
          dfu_lock_try, hd, OpResult.safe, Inv, h.symm]

/-- Running any sequence of operations from a state satisfying the invariant
keeps the invariant and never trips an assertion or a null dereference. -/
theorem exec_inv_safe (hasCb : Nat → Bool) :
    ∀ (ops : List Op) (s : State), Inv s →
      Inv (exec hasCb s ops).1 ∧ (exec hasCb s ops).2.2 = true := by
  intro ops
  induction ops with
  | nil => intro s h; exact ⟨h, rfl⟩
  | cons op rest ih =>
    intro s h
    have hs := step_inv_safe hasCb s op h
    have ht := ih _ hs.1
    simp only [exec]
    exact ⟨ht.1, by simp [hs.2, ht.2]⟩

/-- Fixture: an environment in which no owner descriptor has an
`owner_changed` callback. -/
def hcbNone : Nat → Bool := fun _ => false

/-- Fixture: an environment in which every owner descriptor has an
`owner_changed` callback. -/
def hcbAll : Nat → Bool := fun _ => true

/-- Fixture: a state in which the descriptor at address 2 holds the lock. -/
def heldByTwo : State := ⟨none, some 2, true⟩

/-- Fixture: a state in which the descriptor at address 3 holds the lock. -/
def heldByThree : State := ⟨none, some 3, true⟩

/-- Fixture: a free state whose `previous_owner` is the descriptor at
address 1. -/
def prevOne : State := ⟨some 1, none, false⟩

/-- C1: for every finite sequence of calls to the four operations starting
from the initial state, the state reached has the held flag set iff
`current_owner` is non-null, and at most one identity is the current owner
(every intermediate point is the final state of a prefix sequence, so
quantifying over all sequences covers every point between operations). -/
theorem c1_state_invariant (hasCb : Nat → Bool) (ops : List Op) :
    (exec hasCb State.init ops).1.dfu_lock
        = (exec hasCb State.init ops).1.current_owner.isSome
      ∧ (exec hasCb State.init ops).1.current_owner.toList.length ≤ 1 := by
  refine ⟨(exec_inv_safe hasCb ops State.init rfl).1, ?_⟩
  cases (exec hasCb State.init ops).1.current_owner <;> simp

/-- C2: calling `dfu_lock_try(X)` with the lock free returns true and moves
to the held state with `current_owner = X` and `previous_owner` untouched
(free→held is the only transition); calling it with the lock held returns
false, changes nothing, and invokes no callback. -/
theorem c2_try_cas_semantics (hasCb : Nat → Bool) (s : State) (x : Nat) :
    (s.dfu_lock = false →
        (dfu_lock_try hasCb s (some x)).ret = true
        ∧ (dfu_lock_try hasCb s (some x)).state
            = { previous_owner := s.previous_owner, current_owner := some x,
                dfu_lock := true })
    ∧ (s.dfu_lock = true →
        (dfu_lock_try hasCb s (some x)).ret = false
        ∧ (dfu_lock_try hasCb s (some x)).state = s
        ∧ (dfu_lock_try hasCb s (some x)).calls = []) := by
  constructor
  · intro hfree
    simp [dfu_lock_try, hfree]
  · intro hheld
    simp [dfu_lock_try, hheld]

/-- Witness for C2: concrete success from the initial state and concrete
rejection against a lock held by a different descriptor. -/
theorem c2_try_cas_semantics_witness :
    ((dfu_lock_try hcbNone State.init (some 1)).ret = true
      ∧ (dfu_lock_try hcbNone State.init (some 1)).state
          = { previous_owner := none, current_owner := some 1, dfu_lock := true })
    ∧ ((dfu_lock_try hcbNone heldByTwo (some 1)).ret = false
      ∧ (dfu_lock_try hcbNone heldByTwo (some 1)).state = heldByTwo
      ∧ (dfu_lock_try hcbNone heldByTwo (some 1)).calls = []) :=
  ⟨(c2_try_cas_semantics hcbNone State.init 1).1 rfl,
   (c2_try_cas_semantics hcbNone heldByTwo 1).2 rfl⟩

/-- C3: a release by the current owner `X` of a held lock records `X` as
`previous_owner`, clears `current_owner`, and drops the held flag from true
to false. -/
theorem c3_release_by_owner (s : State) (x : Nat)
    (h1 : s.current_owner = some x) (h2 : s.dfu_lock = true) :
    (dfu_lock_release s (some x)).state
      = { previous_owner := some x, current_owner := none, dfu_lock := false }
    ∧ (dfu_lock_release s (some x)).assertFail = false := by
  simp [dfu_lock_release, h1, h2]

/-- Witness for C3: the owner at address 3 releases a lock it holds. -/
theorem c3_release_by_owner_witness :
    (dfu_lock_release heldByThree (some 3)).state
      = { previous_owner := some 3, current_owner := none, dfu_lock := false }
    ∧ (dfu_lock_release heldByThree (some 3)).assertFail = false :=
  c3_release_by_owner heldByThree 3 rfl rfl

/-- C7: under sequential execution from the initial state, no operation in
any sequence trips an internal assertion (`new_owner != NULL`,
`current_owner == NULL` after a successful free→held CAS, the held→free CAS
in release succeeding) or dereferences a null pointer (all `->name` reads,
in particular `current_owner->name` on the failure path of
`dfu_lock_owner_check_and_try`). -/
theorem c7_sequential_safety (hasCb : Nat → Bool) (ops : List Op) :
    (exec hasCb State.init ops).2.2 = true :=
  (exec_inv_safe hasCb ops State.init rfl).2

/-- C4: on a successful acquisition of a free lock by `X`, the previous
owner's callback fires exactly once with `X` as argument iff a previous
owner exists, has a callback, and differs from `X`; the delegating
`dfu_lock_owner_check_and_try` performs exactly the callback invocations of
the `dfu_lock_try` it delegates to; and in the concrete acquire–release–
acquire trace, the first owner's callback fires once with the second owner
as argument. -/
theorem c4_preempt_notify (hasCb : Nat → Bool) (s : State) (x : Nat)
    (hfree : s.dfu_lock = false) :
    ((dfu_lock_try hasCb s (some x)).calls
        = match s.previous_owner with
          | none => []
          | some p => if hasCb p = true ∧ p ≠ x then [(p, some x)] else [])
    ∧ (∀ a b : Nat, hasCb a = true → a ≠ b →
        (exec hasCb State.init [Op.tryOp a, Op.releaseOp a, Op.tryOp b]).2.1
          = [(a, some b)])
    ∧ (∀ y : Nat, s.current_owner ≠ some y →
        (dfu_lock_owner_check_and_try hasCb s (some y)).calls
          = (dfu_lock_try hasCb s (some y)).calls) := by
  refine ⟨?_, ?_, ?_⟩
  · cases hp : s.previous_owner with
    | none => simp [dfu_lock_try, hfree, hp]
    | some p =>
      by_cases hcb : hasCb p
      · by_cases hpx : p = x
        · simp [dfu_lock_try, hfree, hp, hcb, hpx]
        · simp [dfu_lock_try, hfree, hp, hcb, hpx]
      · simp [dfu_lock_try, hfree, hp, hcb]
  · intro a b ha hab
    simp [exec, step, dfu_lock_try, dfu_lock_release, State.init, OpResult.safe,
      ha, hab, Ne.symm hab]
  · intro y hy
    have hret : (dfu_lock_owner_check s (some y)).ret = false := by
      simp [dfu_lock_owner_check]
      exact fun h => hy h.symm
    cases hd : s.dfu_lock with
    | false => simp [dfu_lock_owner_check_and_try, hret, dfu_lock_try, hd]
    | true => simp [dfu_lock_owner_check_and_try, hret, dfu_lock_try, hd]

/-- Witness for C4: with every descriptor carrying a callback, acquiring the
free state whose previous owner is address 1 with address 2 fires exactly
one invocation of owner 1 with argument 2, both directly and through the
delegating operation, and the three-step trace shows the same. -/
theorem c4_preempt_notify_witness :
    ((dfu_lock_try hcbAll prevOne (some 2)).calls = [(1, some 2)])
    ∧ ((exec hcbAll State.init [Op.tryOp 1, Op.releaseOp 1, Op.tryOp 2]).2.1
        = [(1, some 2)])
    ∧ ((dfu_lock_owner_check_and_try hcbAll prevOne (some 2)).calls
        = (dfu_lock_try hcbAll prevOne (some 2)).calls) := by
  have h := c4_preempt_notify hcbAll prevOne 2 rfl
  exact ⟨h.1.trans (by decide), h.2.1 1 2 rfl (by decide), h.2.2 2 (by decide)⟩

/-- C5: a call to `dfu_lock_owner_check_and_try` by the identity that already
owns the lock returns true, changes no state, and fires no callback, and
any number of consecutive repeated calls by that identity behaves the same
(the whole trace returns to the same state with an empty callback trace). -/
theorem c5_idempotent_reentry (hasCb : Nat → Bool) (s : State) (x : Nat)
    (h : s.current_owner = some x) :
    (dfu_lock_owner_check_and_try hasCb s (some x)).ret = true
    ∧ (dfu_lock_owner_check_and_try hasCb s (some x)).state = s
    ∧ (dfu_lock_owner_check_and_try hasCb s (some x)).calls = []
    ∧ ∀ n : Nat,
        exec hasCb s (List.replicate n (Op.checkAndTryOp x)) = (s, [], true) := by
  refine ⟨?_, ?_, ?_, ?_⟩
  · simp [dfu_lock_owner_check_and_try, dfu_lock_owner_check, h]
  · simp [dfu_lock_owner_check_and_try, dfu_lock_owner_check, h]
  · simp [dfu_lock_owner_check_and_try, dfu_lock_owner_check, h]
  · intro n
    induction n with
    | zero => simp [exec]
    | succ n ih =>
      simp [List.replicate, exec, step, dfu_lock_owner_check_and_try,
        dfu_lock_owner_check, h, OpResult.safe, ih]

/-- Witness for C5: the owner at address 2 re-enters its own lock, once and
three times in a row. -/
theorem c5_idempotent_reentry_witness :
    (dfu_lock_owner_check_and_try hcbAll heldByTwo (some 2)).ret = true
    ∧ (dfu_lock_owner_check_and_try hcbAll heldByTwo (some 2)).state = heldByTwo
    ∧ (dfu_lock_owner_check_and_try hcbAll heldByTwo (some 2)).calls = []
    ∧ exec hcbAll heldByTwo (List.replicate 3 (Op.checkAndTryOp 2))
        = (heldByTwo, [], true) := by
  have h := c5_idempotent_reentry hcbAll heldByTwo 2 rfl
  exact ⟨h.1, h.2.1, h.2.2.1, h.2.2.2 3⟩

/-- C6: a release by any pointer that is not the current owner — including
any identity while the lock is free — leaves the whole state unchanged,
fires no callback, and trips no assertion. -/
theorem c6_nonowner_release_noop (s : State) (y : OwnerPtr)
    (h : s.current_owner ≠ y) :
    (dfu_lock_release s y).state = s
    ∧ (dfu_lock_release s y).assertFail = false
    ∧ (dfu_lock_release s y).calls = [] := by
  simp [dfu_lock_release, h]

/-- Witness for C6: owner 1 releases while owner 2 holds the lock. -/
theorem c6_nonowner_release_noop_witness :
    (dfu_lock_release heldByTwo (some 1)).state = heldByTwo
    ∧ (dfu_lock_release heldByTwo (some 1)).assertFail = false
    ∧ (dfu_lock_release heldByTwo (some 1)).calls = [] :=
  c6_nonowner_release_noop heldByTwo (some 1) (by decide)

/-- C8: `dfu_lock_owner_check` returns true iff its argument is the current
owner pointer, with no state change and no callback; and after an
acquisition of a free lock by `A`, `check(A)` is true and `check(B)` is
false for every `B` different from `A`. -/
theorem c8_check_accuracy (s : State) (o : OwnerPtr) :
    ((dfu_lock_owner_check s o).ret = true ↔ o = s.current_owner)
    ∧ (dfu_lock_owner_check s o).state = s
    ∧ (dfu_lock_owner_check s o).calls = []
    ∧ (∀ (hasCb : Nat → Bool) (a b : Nat), a ≠ b → s.dfu_lock = false →
        (dfu_lock_owner_check (dfu_lock_try hasCb s (some a)).state (some a)).ret
            = true
        ∧ (dfu_lock_owner_check (dfu_lock_try hasCb s (some a)).state (some b)).ret
            = false) := by
  refine ⟨by simp [dfu_lock_owner_check], rfl, rfl, ?_⟩
  intro hasCb a b hab hfree
  simp [dfu_lock_try, hfree, dfu_lock_owner_check, hab, Ne.symm hab]

/-- Witness for C8: the query against the state held by owner 2, and the
acquire-then-check scenario for owners 1 and 2 from the initial state. -/
theorem c8_check_accuracy_witness :
    ((dfu_lock_owner_check heldByTwo (some 2)).ret = true
      ↔ (some 2 : OwnerPtr) = heldByTwo.current_owner)
    ∧ (dfu_lock_owner_check heldByTwo (some 2)).state = heldByTwo
    ∧ (dfu_lock_owner_check heldByTwo (some 2)).calls = []
    ∧ ((dfu_lock_owner_check (dfu_lock_try hcbAll State.init (some 1)).state
          (some 1)).ret = true
      ∧ (dfu_lock_owner_check (dfu_lock_try hcbAll State.init (some 1)).state
          (some 2)).ret = false) := by
  have h := c8_check_accuracy heldByTwo (some 2)
  exact ⟨h.1, h.2.1, h.2.2.1,
    (c8_check_accuracy State.init (some 2)).2.2.2 hcbAll 1 2 (by decide) rfl⟩

/-- C9: every callback invocation performed during `dfu_lock_try(X)` carries
the new owner `X` as its argument and happens in the state in which
`current_owner` has already been set to `X` — the invocation is part of the
operation's own result, so in any trace it is complete before any later
operation runs, i.e. before `dfu_lock_try` has returned to its caller. -/
theorem c9_callback_ordering (hasCb : Nat → Bool) (s : State) (x : Nat)
    (p : Nat) (a : OwnerPtr)
    (h : (p, a) ∈ (dfu_lock_try hasCb s (some x)).calls) :
    a = some x
    ∧ (dfu_lock_try hasCb s (some x)).state.current_owner = some x := by
  cases hd : s.dfu_lock with
  | true =>
    simp [dfu_lock_try, hd] at h
  | false =>
    refine ⟨?_, by simp [dfu_lock_try, hd]⟩
    simp only [dfu_lock_try, hd, Bool.false_eq_true, if_false] at h
    cases hp : s.previous_owner with
    | none => rw [hp] at h; simp at h
    | some q =>
      rw [hp] at h
      by_cases hcb : hasCb q
      · by_cases hqx : (some q : OwnerPtr) ≠ some x
        · simp [hcb, hqx] at h
          exact h.2
        · simp [hcb, hqx] at h
      · simp [hcb] at h

/-- Witness for C9: acquiring the free state whose previous owner is
address 1 with address 2 invokes owner 1's callback with argument 2, with
owner 2 installed as the current owner. -/
theorem c9_callback_ordering_witness :
    (some 2 : OwnerPtr) = some 2
    ∧ (dfu_lock_try hcbAll prevOne (some 2)).state.current_owner = some 2 :=
  c9_callback_ordering hcbAll prevOne 2 1 (some 2) (by decide)

/-- C10: with the lock free, `dfu_lock_owner_check` applied to the `NULL`
pointer returns true (`NULL == NULL`), and `dfu_lock_owner_check_and_try`
applied to `NULL` returns true through the check branch without touching any
state or invoking any callback — the null identity is reported as owning the
free lock although nothing was acquired. -/
theorem c10_null_identity_check (hasCb : Nat → Bool) (s : State)
    (h : s.current_owner = none) :
    (dfu_lock_owner_check s none).ret = true
    ∧ (dfu_lock_owner_check_and_try hasCb s none).ret = true
    ∧ (dfu_lock_owner_check_and_try hasCb s none).state = s
    ∧ (dfu_lock_owner_check_and_try hasCb s none).calls = [] := by
  simp [dfu_lock_owner_check, dfu_lock_owner_check_and_try, h]

/-- Witness for C10: the null identity queried against the initial state. -/
theorem c10_null_identity_check_witness :
    (dfu_lock_owner_check State.init none).ret = true
    ∧ (dfu_lock_owner_check_and_try hcbAll State.init none).ret = true
    ∧ (dfu_lock_owner_check_and_try hcbAll State.init none).state = State.init
    ∧ (dfu_lock_owner_check_and_try hcbAll State.init none).calls = [] :=
  c10_null_identity_check hcbAll State.init rfl

end DfuLock
